import Mathlib

/-
Verification development for the resilient chat-completion client in
tradingagents/llm_adapters/third_party_openai.py (class ThirdPartyOpenAI).

The Python source is shallowly embedded below.  Strings are modelled as
List Char (Python str slicing, len and iteration are per code point, as is
List Char); Python non-negative token counts are Nat; JSON values parsed by
json.loads are an inductive Json; the json.loads call itself is abstracted
as an oracle of type List Char -> Option Json (None models a raised
JSONDecodeError).  Each definition cites the lines of the source it embeds.
-/

set_option autoImplicit false

/-! ## JSON values and server-sent-event stream decoding

Embeds the streaming branch of ThirdPartyOpenAI._direct_api_call
(third_party_openai.py lines 757-777). -/

/-- JSON values as produced by json.loads. -/
inductive Json where
  | null
  | jbool (b : Bool)
  | jnum (n : Int)
  | jstr (s : String)
  | jarr (xs : List Json)
  | jobj (fields : List (String × Json))

/-- Field lookup in the association list of a JSON object (dict access in
Python; objects built by json.loads keep one value per key). -/
def lookupField : List (String × Json) → String → Option Json
  | [], _ => none
  | (k', v) :: rest, k => if k' = k then some v else lookupField rest k

/-- dict.get on a JSON value: some value for an object containing the key,
none otherwise. -/
def Json.getField : Json → String → Option Json
  | .jobj fs, k => lookupField fs k
  | _, _ => none

/-- Text delta extracted from one parsed stream chunk, per lines 768-772:
chunk_data['choices'][0].get('delta', dict()).get('content', '') and the
append happens only for truthy content; appending the empty string is a
no-op, so absent or non-string content is modelled as "". -/
def chunkDeltaContent (j : Json) : String :=
  match j.getField "choices" with
  | some (.jarr (c0 :: _)) =>
    match c0.getField "delta" with
    | some d =>
      match d.getField "content" with
      | some (.jstr s) => s
      | _ => ""
    | none => ""
  | _ => ""

/-- Line 761-762: a line is processed only when it starts with the marker
"data: "; the payload is the rest of the line.  Empty lines (line 759,
if line:) and lines without the marker fall in the none case and are
skipped. -/
def dataPayload : List Char → Option (List Char)
  | 'd' :: 'a' :: 't' :: 'a' :: ':' :: ' ' :: rest => some rest
  | _ => none

/-- Terminal sentinel payload "[DONE]" (line 763). -/
def doneSentinel : List Char := ['[', 'D', 'O', 'N', 'E', ']']

/-- Stream decoding loop, lines 757-776.  parse abstracts json.loads
(none = JSONDecodeError, which the code logs and skips, line 774-775).
acc is full_content.  Decoding stops at the sentinel, returning the
accumulated text. -/
def decodeSSE (parse : List Char → Option Json) :
    List (List Char) → String → String
  | [], acc => acc
  | line :: rest, acc =>
    match dataPayload line with
    | none => decodeSSE parse rest acc
    | some payload =>
      if payload = doneSentinel then acc
      else
        match parse payload with
        | none => decodeSSE parse rest acc
        | some j => decodeSSE parse rest (acc ++ chunkDeltaContent j)

/-- Full stream decode starting from the empty accumulator (line 757,
full_content = ""). -/
def decodeStream (parse : List Char → Option Json) (lines : List (List Char)) : String :=
  decodeSSE parse lines ""

/-! ## Usage accounting

Embeds the usage bookkeeping of _direct_api_call (lines 784-800 and
816-839) and the replay measurement
_get_accurate_tokens_via_complete_conversation (lines 897-993) with
_get_input_only_tokens (lines 995-1037). -/

/-- The usage object of an upstream response body; each field may be
absent (dict.get defaults to 0).  Upstream token counts are non-negative
integers, modelled as Nat. -/
structure ApiUsage where
  prompt_tokens : Option Nat
  completion_tokens : Option Nat
  total_tokens : Option Nat
deriving DecidableEq

/-- The _last_api_usage record stored by the client (a dict with the three
token fields). -/
structure UsageDict where
  prompt_tokens : Nat
  completion_tokens : Nat
  total_tokens : Nat
deriving DecidableEq

/-- Lines 821-827: non-streaming 200 response carrying a usage object; each
field is copied with usage.get(field, 0).  Note total_tokens is copied
verbatim, not recomputed from the other two. -/
def usageFromApi (u : ApiUsage) : UsageDict :=
  ⟨u.prompt_tokens.getD 0, u.completion_tokens.getD 0, u.total_tokens.getD 0⟩

/-- max(1, int(len * 0.75)) used by the estimate fallbacks (lines 792-793,
832-833).  For the lengths that occur, len * 0.75 is exact in floating
point and int() truncates, so this is max 1 (3 * len / 4) over Nat. -/
def estimateTokens (len : Nat) : Nat := max 1 (3 * len / 4)

/-- Estimate-tier usage record (lines 795-799): both fields estimated from
character counts, total formed as their sum. -/
def estimateUsage (inLen outLen : Nat) : UsageDict :=
  ⟨estimateTokens inLen, estimateTokens outLen,
    estimateTokens inLen + estimateTokens outLen⟩

/-- Replay measurement, lines 951-993.  fullResp is the usage object of the
complete-conversation request (none when that request failed, returned a
non-200 status, or had no usage field); inputResp likewise for the
input-only request.  a = prompt token count of the full conversation,
b = prompt token count of the input alone;
accurate_output_tokens = a - b (Python int subtraction) and the record is
built only when a - b > 0, which over Nat is b < a; the stored total is
b + (a - b) as in line 971. -/
def replayUsage (fullResp inputResp : Option ApiUsage) : Option UsageDict :=
  match fullResp with
  | none => none
  | some uf =>
    let a := uf.prompt_tokens.getD 0
    match inputResp with
    | none => none
    | some ui =>
      let b := ui.prompt_tokens.getD 0
      if b < a then some ⟨b, a - b, b + (a - b)⟩ else none

/-- Usage recorded after a successful streaming call, lines 784-800: the
replay result when it produced a record, otherwise the character-count
estimate over the joined input text and the accumulated answer. -/
def streamRecordedUsage (replay : Option UsageDict) (inLen outLen : Nat) : UsageDict :=
  match replay with
  | some u => u
  | none => estimateUsage inLen outLen

/-- The streaming branch end to end: decode the event stream, then record
usage from the replay responses or the estimate (lines 757-805).  inLen is
the length of the space-joined input text (line 791). -/
def streamPipeline (parse : List Char → Option Json) (lines : List (List Char))
    (fullResp inputResp : Option ApiUsage) (inLen : Nat) : String × UsageDict :=
  let text := decodeStream parse lines
  (text, streamRecordedUsage (replayUsage fullResp inputResp) inLen text.length)

/-! ## Streaming-flag resolution and parameter filtering

Embeds ThirdPartyOpenAI.__init__ (lines 82-116), the dispatch decision in
_generate (lines 462-473), _filter_safe_kwargs (lines 144-157),
_filter_model_kwargs (lines 350-370) and the request body built by
_direct_api_call (lines 713-727). -/

/-- A Python value handed in a kwargs entry, as far as the streaming logic
inspects it: either an actual bool, or any non-boolean value (which the
isinstance(·, bool) checks discard). -/
inductive PyVal where
  | pybool (b : Bool)
  | nonBoolVal
deriving DecidableEq

/-- Lines 87-95: user_stream is the stream kwarg when it is present and is
a bool, otherwise default_streaming = False. -/
def resolveUserStream (streamKw : Option PyVal) : Bool :=
  match streamKw with
  | some (.pybool b) => b
  | some .nonBoolVal => false
  | none => false

/-- Lines 84-85 and 113: user_wants_streaming = user_streaming or
user_stream, where user_streaming is the streaming kwarg (a flag, defaulting
to False) and user_stream is resolved above. -/
def initUserWantsStreaming (streamingKw : Option Bool) (streamKw : Option PyVal) : Bool :=
  streamingKw.getD false || resolveUserStream streamKw

/-- Lines 465-469: at generation time the stored user_wants_streaming can
only be raised to true by a call-time stream kwarg that is a bool and is
True; any other call-time value leaves it unchanged. -/
def generateWantsStreaming (userWants : Bool) (callStreamKw : Option PyVal) : Bool :=
  userWants || (match callStreamKw with | some (.pybool b) => b | _ => false)

section Filters

variable {V : Type}

/-- _filter_safe_kwargs, lines 144-157: no filtering, the kwargs are
returned unchanged.  Kwargs are modelled as an association list over an
arbitrary value type. -/
def filterSafeKwargs (kwargs : List (String × V)) : List (String × V) := kwargs

/-- _filter_model_kwargs, lines 350-370: a falsy argument yields the empty
dict, anything else is returned unchanged. -/
def filterModelKwargs (modelKwargs : List (String × V)) : List (String × V) :=
  if modelKwargs.isEmpty then [] else modelKwargs

end Filters

/-- Keys of the request body built by _direct_api_call, lines 713-723:
model, messages, temperature and stream always; max_tokens only when the
instance attribute is set and positive (if max_tokens and max_tokens > 0).
No other caller-supplied generation option is added. -/
def directRequestKeys (maxTokens : Option Nat) : List String :=
  ["model", "messages", "temperature", "stream"] ++
    (match maxTokens with
     | some n => if 0 < n then ["max_tokens"] else []
     | none => [])

/-! ## Execution dispatcher control flow

Embeds the try/except structure of _generate (lines 462-527) together with
the network calls made by the streaming branch of _direct_api_call and the
replay measurement.  A Scenario fixes the outcome of each potential
upstream call; the trace lists the network attempts actually issued, in
order, and the overall result kind. -/

/-- Which cleaning was applied to the messages of a primary-path call:
none, the light cleaner _clean_message_content (used by the retry at lines
483-503), or the aggressive cleaner _aggressive_clean_messages (never used
on the primary path). -/
inductive CleanLevel where
  | noClean
  | light
  | aggressive
deriving DecidableEq

/-- One network attempt against the upstream endpoint. -/
inductive Attempt where
  | primary (lvl : CleanLevel)
  | streamCall
  | replayFull
  | replayInputOnly
deriving DecidableEq

/-- Classification of the exception raised by an upstream call, following
the string tests of lines 480 and 508: a token-parse error (Unexpected
token ... while expecting start token), a 500/internal server error, or any
other exception. -/
inductive CallOutcome where
  | ok
  | malformedInput
  | serverError
  | otherError
deriving DecidableEq

/-- How _generate terminates: a normal ChatResult, the diagnostic error
response of _create_error_response (lines 522-524), or an exception
propagating to the caller. -/
inductive RunResult where
  | success
  | errorText
  | raised
deriving DecidableEq

/-- Outcomes of every upstream call a single _generate invocation may
issue.  first: the first attempt inside the try block, which is the
streaming _direct_api_call of line 473 when streaming was requested and
super()._generate otherwise; a failure is classified by the string tests
of lines 480 and 508 applied to the raised message (for the streaming
call, the message built at lines 752-754 embeds the response body, so a
token-parse or 500 body selects the corresponding branch).  retry:
super()._generate on the light-cleaned messages.  fallbackOk: the
streaming POST of the fallback _direct_api_call(messages) issued inside
the except handler (lines 506 and 513) returns 200.  replayFullOk: the
complete-conversation measurement POST of whichever streaming
_direct_api_call succeeded returns 200 with a usage object;
replayInputOk: likewise for the input-only measurement POST. -/
structure Scenario where
  first : CallOutcome
  retry : CallOutcome
  fallbackOk : Bool
  replayFullOk : Bool
  replayInputOk : Bool
deriving DecidableEq

/-- Replay measurement attempts (lines 944-949 and 1022-1027): the
complete-conversation POST is always issued; the input-only POST is issued
only after the first one succeeded. -/
def replayTrace (sc : Scenario) : List Attempt :=
  .replayFull :: (if sc.replayFullOk then [.replayInputOnly] else [])

/-- The streaming branch of _direct_api_call when its POST returns 200
(lines 740-805): the streaming POST followed by the replay measurement,
whose own failures are swallowed and only degrade usage (lines
990-993). -/
def directStreamOkTrace (sc : Scenario) : List Attempt :=
  .streamCall :: replayTrace sc

/-- The fallback _direct_api_call(messages) of lines 506 and 513, with its
default stream=True: one streaming POST; on 200 the replay measurement
runs and a result is returned (true); on any other status an exception is
raised (false, line 754). -/
def fallbackStreamTrace (sc : Scenario) : List Attempt × Bool :=
  if sc.fallbackOk then (directStreamOkTrace sc, true) else ([.streamCall], false)

/-- The except handler of _generate (lines 478-527), entered when the
first attempt raised with classification c.  A token-parse message: the
messages are re-cleaned with the light cleaner _clean_message_content and
super()._generate is retried once (lines 483-503); if that retry raises
any exception the code switches to the fallback _direct_api_call, whose
failure propagates (line 506).  A 500-class message: the fallback
_direct_api_call runs, its failure yielding the diagnostic error response
(lines 513-524).  Any other exception is re-raised (line 527).  The ok
case never reaches the handler. -/
def handlerTrace (sc : Scenario) : CallOutcome → List Attempt × RunResult
  | .ok => ([], .success)
  | .malformedInput =>
    if sc.retry = .ok then ([.primary .light], .success)
    else
      let d := fallbackStreamTrace sc
      (.primary .light :: d.1, if d.2 then .success else .raised)
  | .serverError =>
    let d := fallbackStreamTrace sc
    (d.1, if d.2 then .success else .errorText)
  | .otherError => ([], .raised)

/-- The _generate control flow, lines 462-527, for a call whose resolved
streaming decision is wantsStreaming.  The first attempt is the streaming
_direct_api_call (line 473) or super()._generate (line 477); both sit
inside the same try block, so a failure of either raises into the except
handler above, which classifies the message and recovers (light-cleaned
retry of super()._generate and/or a fallback _direct_api_call with its
replay measurement). -/
def generateTrace (wantsStreaming : Bool) (sc : Scenario) : List Attempt × RunResult :=
  match sc.first with
  | .ok =>
    if wantsStreaming then (directStreamOkTrace sc, .success)
    else ([.primary .noClean], .success)
  | c =>
    let h := handlerTrace sc c
    ((if wantsStreaming then Attempt.streamCall else .primary .noClean) :: h.1, h.2)

/-- Number of primary-path (super()._generate) attempts in a trace. -/
def primaryCount (t : List Attempt) : Nat :=
  t.countP (fun a => match a with | .primary _ => true | _ => false)

deriving instance Fintype for CallOutcome

deriving instance Fintype for Scenario

/-! ## Concrete stream fixtures used by witnesses and counterexamples -/

/-- A parsed stream chunk whose delta content is "A". -/
def chunkJsonA : Json :=
  .jobj [("choices", .jarr [.jobj [("delta", .jobj [("content", .jstr "A")])]])]

/-- A parsed stream chunk whose delta content is "B". -/
def chunkJsonB : Json :=
  .jobj [("choices", .jarr [.jobj [("delta", .jobj [("content", .jstr "B")])]])]

/-- A parsed stream chunk carrying both a delta "Hi" and an inline usage
object with prompt 12, completion 5, total 17. -/
def chunkJsonWithUsage : Json :=
  .jobj [("choices", .jarr [.jobj [("delta", .jobj [("content", .jstr "Hi")])]]),
    ("usage", .jobj [("prompt_tokens", .jnum 12), ("completion_tokens", .jnum 5),
      ("total_tokens", .jnum 17)])]

/-- A parsed stream chunk with delta "Hi" and no usage object. -/
def chunkJsonPlainHi : Json :=
  .jobj [("choices", .jarr [.jobj [("delta", .jobj [("content", .jstr "Hi")])]])]

/-- Concrete json.loads oracle for the fixtures: two well-formed chunk
payloads; every other payload fails to parse. -/
def parseFix (payload : List Char) : Option Json :=
  if payload = "chunkA".data then some chunkJsonA
  else if payload = "chunkB".data then some chunkJsonB
  else none

/-- Concrete json.loads oracle for the inline-usage fixtures. -/
def parseUsageFix (payload : List Char) : Option Json :=
  if payload = "chunkU".data then some chunkJsonWithUsage
  else if payload = "plainHi".data then some chunkJsonPlainHi
  else none

/-- The event sequence of the specification example: a delta-A event, a
malformed line, a delta-B event, then the sentinel. -/
def exampleLines : List (List Char) :=
  ["data: chunkA".data, "malformed-json".data, "data: chunkB".data, "data: [DONE]".data]

/-- A stream whose only chunk carries an inline usage object. -/
def usageStreamLines : List (List Char) :=
  ["data: chunkU".data, "data: [DONE]".data]

/-- A stream with the same decoded text as usageStreamLines but no inline
usage object. -/
def plainStreamLines : List (List Char) :=
  ["data: plainHi".data, "data: [DONE]".data]

/-- The full sentinel line data: [DONE]. -/
def doneLine : List Char := 'd' :: 'a' :: 't' :: 'a' :: ':' :: ' ' :: doneSentinel

/-- A usage record satisfies the UsageRecord invariant when its total is
the sum of its prompt and completion counts (non-negativity is built into
the Nat embedding of Python's non-negative token counts). -/
def usageConsistent (u : UsageDict) : Prop :=
  u.total_tokens = u.prompt_tokens + u.completion_tokens

/-! ## Light message cleaning

Embeds _clean_message_content (lines 237-274): remove zero-width and BOM
characters, normalize line endings, collapse runs of 3 or more newlines to
two, collapse runs of 3 or more spaces/tabs to two spaces, strip, replace
an empty result by a fixed placeholder, and truncate to 8000 characters
with a marker appended. -/

/-- Characters removed at lines 252-253: the zero-width space and the BOM
character. -/
def isZeroWidthChar (c : Char) : Bool := c = '\u200B' || c = '\uFEFF'

/-- Lines 252-253: content.replace removing every zero-width/BOM
character. -/
def stripZeroWidth (l : List Char) : List Char := l.filter (fun c => !(isZeroWidthChar c))

/-- Line 256: replace CRLF by LF, then every remaining CR by LF; a CR
directly before an LF is merged, any other CR becomes an LF. -/
def normalizeCR : List Char → List Char
  | [] => []
  | [c] => [if c = '\r' then '\n' else c]
  | c1 :: c2 :: rest =>
    if c1 = '\r' then
      if c2 = '\n' then '\n' :: normalizeCR rest
      else '\n' :: normalizeCR (c2 :: rest)
    else c1 :: normalizeCR (c2 :: rest)

/-- Newline class for the regex at line 260. -/
def isNL (c : Char) : Bool := c = '\n'

/-- Space-or-tab class for the regex at line 261. -/
def isSpTab (c : Char) : Bool := c = ' ' || c = '\t'

/-- re.sub of a run class: every maximal run of 3 or more characters of
class p is replaced by rep (lines 260-261); shorter runs are kept. -/
def collapseRuns (p : Char → Bool) (rep : List Char) : List Char → List Char
  | [] => []
  | c :: rest =>
    if h : p c then
      (if 3 ≤ ((c :: rest).takeWhile p).length then rep else (c :: rest).takeWhile p)
        ++ collapseRuns p rep ((c :: rest).dropWhile p)
    else c :: collapseRuns p rep rest
termination_by l => l.length
decreasing_by
  · have h1 : (c :: rest).dropWhile p = rest.dropWhile p := by
      simp [List.dropWhile_cons, h]
    have h2 : (rest.dropWhile p).length ≤ rest.length :=
      (List.dropWhile_suffix p).sublist.length_le
    simp only [h1, List.length_cons]
    omega
  · exact Nat.lt_succ_self _

/-- Python str.strip() whitespace class. -/
def pyWs (c : Char) : Bool :=
  c = ' ' || c = '\t' || c = '\n' || c = '\r' || c = '\x0B' || c = '\x0C' ||
  c = '\x1C' || c = '\x1D' || c = '\x1E' || c = '\x1F' || c = '\u0085' ||
  c = '\u00A0' || c = '\u1680' || ('\u2000' ≤ c && c ≤ '\u200A') ||
  c = '\u2028' || c = '\u2029' || c = '\u202F' || c = '\u205F' || c = '\u3000'

/-- Remove the trailing run of characters of class p. -/
def rtrim (p : Char → Bool) : List Char → List Char
  | [] => []
  | c :: rest =>
    match rtrim p rest with
    | [] => if p c then [] else [c]
    | r => c :: r

/-- Python str.strip(): drop leading and trailing whitespace (line 264). -/
def pyStrip (l : List Char) : List Char := rtrim pyWs (l.dropWhile pyWs)

/-- The fixed placeholder substituted for an empty result (line 266). -/
def placeholderContent : List Char := "请提供分析建议。".data

/-- The truncation marker appended at line 271. -/
def truncationMark : List Char := "...(内容过长已截断)".data

/-- Steps 1-4 of _clean_message_content (lines 252-264): strip zero-width
characters, normalize line endings, collapse newline runs, collapse
space/tab runs, then strip. -/
def sanitizePipeline (l : List Char) : List Char :=
  pyStrip (collapseRuns isSpTab [' ', ' ']
    (collapseRuns isNL ['\n', '\n'] (normalizeCR (stripZeroWidth l))))

/-- _clean_message_content, lines 237-274, over the character list of the
content string: the cleaning pipeline, the empty-content placeholder
substitution (line 266), and the 8000-character truncation with marker
(lines 269-271). -/
def cleanChars (l : List Char) : List Char :=
  let s := sanitizePipeline l
  let s2 := if s = [] then placeholderContent else s
  if 8000 < s2.length then s2.take 8000 ++ truncationMark else s2

/-- _clean_message_content as a function on strings (the light cleaner of
the message sanitizer). -/
def cleanMessageContent (s : String) : String := ⟨cleanChars s.data⟩

/-- Run-length bookkeeping: the length of the trailing run of class p
characters of the list, continuing an incoming run of length k. -/
def runTail (p : Char → Bool) : Nat → List Char → Nat
  | k, [] => k
  | k, c :: rest => runTail p (if p c then k + 1 else 0) rest

/-- No run of 3 or more class-p characters occurs, where k class-p
characters immediately precede the list. -/
def noRun3From (p : Char → Bool) : Nat → List Char → Bool
  | _, [] => true
  | k, c :: rest =>
    if p c then decide (k + 1 < 3) && noRun3From p (k + 1) rest
    else noRun3From p 0 rest

/-- No run of 3 or more class-p characters occurs in the list. -/
def noRun3 (p : Char → Bool) (l : List Char) : Bool := noRun3From p 0 l

/-! ## Claim theorems: usage accounting and stream decoding -/

/-- C1: for a streaming fallback call whose replay measurement succeeds
with prompt-token counts a (original messages plus the accumulated answer)
and b (original messages alone): if a - b > 0 the resulting usage record is
prompt b, completion a - b, total a, and this is exactly what the engine
records; if a - b <= 0 no replay-derived record is produced and the engine
falls through to the heuristic estimate. -/
theorem c1_replay_token_accounting (a b : Nat) (uf ui : ApiUsage)
    (ha : uf.prompt_tokens = some a) (hb : ui.prompt_tokens = some b) :
    (b < a → replayUsage (some uf) (some ui) = some ⟨b, a - b, a⟩ ∧
      ∀ inLen outLen : Nat,
        streamRecordedUsage (replayUsage (some uf) (some ui)) inLen outLen =
          ⟨b, a - b, a⟩) ∧
    (a ≤ b → replayUsage (some uf) (some ui) = none ∧
      ∀ inLen outLen : Nat,
        streamRecordedUsage (replayUsage (some uf) (some ui)) inLen outLen =
          estimateUsage inLen outLen) := by
  constructor
  · intro h
    have hr : replayUsage (some uf) (some ui) = some ⟨b, a - b, a⟩ := by
      simp [replayUsage, ha, hb, h, Nat.add_sub_cancel' (Nat.le_of_lt h)]
    exact ⟨hr, fun inLen outLen => by simp [streamRecordedUsage, hr]⟩
  · intro h
    have hr : replayUsage (some uf) (some ui) = none := by
      simp [replayUsage, ha, hb, Nat.not_lt.mpr h]
    exact ⟨hr, fun inLen outLen => by simp [streamRecordedUsage, hr]⟩

/-- Witness for c1_replay_token_accounting at the example of the
specification (a = 40, b = 25 yields the record 25/15/40) and at a failing
replay (a = 25, b = 30 yields the estimate). -/
theorem c1_replay_token_accounting_witness :
    replayUsage (some ⟨some 40, none, none⟩) (some ⟨some 25, none, none⟩) =
      some ⟨25, 15, 40⟩ ∧
    streamRecordedUsage
        (replayUsage (some ⟨some 25, none, none⟩) (some ⟨some 30, none, none⟩)) 4 2 =
      estimateUsage 4 2 :=
  ⟨((c1_replay_token_accounting 40 25 ⟨some 40, none, none⟩ ⟨some 25, none, none⟩
      rfl rfl).1 (by decide)).1,
   ((c1_replay_token_accounting 25 30 ⟨some 25, none, none⟩ ⟨some 30, none, none⟩
      rfl rfl).2 (by decide)).2 4 2⟩

/-- C4 counterexample: the stream decoder does not capture an inline usage
object.  On a stream whose chunk carries usage 12/5/17 and with failing
replay measurement, the recorded usage is the character-count estimate, not
the inline object. -/
theorem c4_inline_usage_ignored_counterexample :
    (streamPipeline parseUsageFix usageStreamLines none none 4).1 = "Hi" ∧
    (streamPipeline parseUsageFix usageStreamLines none none 4).2 =
      estimateUsage 4 2 ∧
    (streamPipeline parseUsageFix usageStreamLines none none 4).2 ≠
      ⟨12, 5, 17⟩ := by
  refine ⟨by decide, by decide, by decide⟩

/-- C4 amended: the stream decoder returns only the accumulated text, and
the usage recorded after a streaming call is determined by the replay
responses and the text lengths alone; two streams decoding to the same text
(whatever inline usage objects they carry) yield identical recorded
usage. -/
theorem c4_usage_independent_of_inline_metadata
    (parse : List Char → Option Json) (lines lines' : List (List Char))
    (fullResp inputResp : Option ApiUsage) (inLen : Nat)
    (h : decodeStream parse lines = decodeStream parse lines') :
    (streamPipeline parse lines fullResp inputResp inLen).2 =
      (streamPipeline parse lines' fullResp inputResp inLen).2 := by
  simp [streamPipeline, h]

/-- Witness for c4_usage_independent_of_inline_metadata: a stream carrying
an inline usage object and a plain stream with the same decoded text record
the same usage. -/
theorem c4_usage_independent_of_inline_metadata_witness :
    (streamPipeline parseUsageFix usageStreamLines none none 4).2 =
      (streamPipeline parseUsageFix plainStreamLines none none 4).2 :=
  c4_usage_independent_of_inline_metadata parseUsageFix usageStreamLines
    plainStreamLines none none 4 (by decide)

/-- C5: a data line whose payload fails to parse as JSON is skipped without
aborting the stream or touching the accumulated text; decoding stops at the
terminal sentinel returning the accumulator; and the specification example
(delta A, malformed line, delta B, sentinel) decodes to AB. -/
theorem c5_malformed_line_skipped :
    (∀ (parse : List Char → Option Json) (acc : String) (bad : List Char)
        (rest : List (List Char)) (payload : List Char),
      dataPayload bad = some payload → payload ≠ doneSentinel →
      parse payload = none →
      decodeSSE parse (bad :: rest) acc = decodeSSE parse rest acc) ∧
    (∀ (parse : List Char → Option Json) (acc : String)
        (rest : List (List Char)),
      decodeSSE parse (doneLine :: rest) acc = acc) ∧
    decodeStream parseFix exampleLines = "AB" := by
  refine ⟨?_, ?_, by decide⟩
  · intro parse acc bad rest payload hd hne hp
    simp [decodeSSE, hd, hne, hp]
  · intro parse acc rest
    simp [decodeSSE, doneLine, dataPayload]

/-- Witness for c5_malformed_line_skipped: a concrete unparseable data line
is skipped, and a concrete sentinel line stops decoding with the
accumulator intact. -/
theorem c5_malformed_line_skipped_witness :
    decodeSSE parseFix ["data: oops".data] "A" = decodeSSE parseFix [] "A" ∧
    decodeSSE parseFix (doneLine :: ["data: chunkB".data]) "X" = "X" :=
  ⟨c5_malformed_line_skipped.1 parseFix "A" "data: oops".data [] "oops".data
      (by decide) (by decide) rfl,
   c5_malformed_line_skipped.2.1 parseFix "X" ["data: chunkB".data]⟩

/-- C8 counterexample: a usage record built from upstream metadata copies
total_tokens verbatim; when the upstream omits total_tokens but reports
prompt 2 and completion 3, the stored record has total 0, violating
total = prompt + completion. -/
theorem c8_total_tokens_counterexample :
    (usageFromApi ⟨some 2, some 3, none⟩).total_tokens ≠
      (usageFromApi ⟨some 2, some 3, none⟩).prompt_tokens +
        (usageFromApi ⟨some 2, some 3, none⟩).completion_tokens := by
  decide

/-- C8 amended: estimate-tier and replay-tier records always satisfy
total = prompt + completion (non-negativity holds by the Nat embedding);
a record copied from upstream metadata satisfies it exactly when the
upstream reported a consistent total. -/
theorem c8_usage_record_consistency :
    (∀ inLen outLen : Nat, usageConsistent (estimateUsage inLen outLen)) ∧
    (∀ (fullResp inputResp : Option ApiUsage) (u : UsageDict),
      replayUsage fullResp inputResp = some u → usageConsistent u) ∧
    (∀ (v : ApiUsage) (p c : Nat),
      v.prompt_tokens = some p → v.completion_tokens = some c →
      v.total_tokens = some (p + c) → usageConsistent (usageFromApi v)) := by
  refine ⟨fun _ _ => rfl, ?_, ?_⟩
  · intro f i u h
    match f, i with
    | none, _ => simp [replayUsage] at h
    | some uf, none => simp [replayUsage] at h
    | some uf, some ui =>
      by_cases hba : ui.prompt_tokens.getD 0 < uf.prompt_tokens.getD 0
      · simp [replayUsage, hba] at h
        rw [← h]
        rfl
      · simp [replayUsage, hba] at h
  · intro v p c hp hc ht
    simp [usageFromApi, usageConsistent, hp, hc, ht]

/-- Witness for c8_usage_record_consistency at concrete records of each
tier. -/
theorem c8_usage_record_consistency_witness :
    usageConsistent (estimateUsage 4 2) ∧
    usageConsistent ⟨25, 15, 40⟩ ∧
    usageConsistent (usageFromApi ⟨some 12, some 5, some 17⟩) :=
  ⟨c8_usage_record_consistency.1 4 2,
   c8_usage_record_consistency.2.1 (some ⟨some 40, none, none⟩)
      (some ⟨some 25, none, none⟩) ⟨25, 15, 40⟩ (by decide),
   c8_usage_record_consistency.2.2 ⟨some 12, some 5, some 17⟩ 12 5 rfl rfl rfl⟩

/-! ## Claim theorems: dispatcher, flag resolution and filtering -/

/-- C2 counterexample: on a first token-parse failure the retry runs on
light-cleaned messages (never the aggressive cleaner), and a second
token-parse failure does not terminate as a fatal failure: the code
switches to the streaming fallback, which can succeed. -/
theorem c2_aggressive_fatal_counterexample :
    (generateTrace false ⟨.malformedInput, .malformedInput, true, true, true⟩).1 =
      [.primary .noClean, .primary .light, .streamCall, .replayFull,
        .replayInputOnly] ∧
    Attempt.primary .aggressive ∉
      (generateTrace false ⟨.malformedInput, .malformedInput, true, true, true⟩).1 ∧
    (generateTrace false ⟨.malformedInput, .malformedInput, true, true, true⟩).2 =
      .success := by
  refine ⟨by decide, by decide, by decide⟩

/-- C2 amended: on a first token-parse failure the messages are re-cleaned
with the light cleaner and the primary path is retried exactly once (two
primary attempts in total, the second light-cleaned); if the retry fails
with any error, the engine switches to the direct streaming fallback
instead of retrying the primary path again. -/
theorem c2_light_retry_then_fallback (sc : Scenario)
    (h : sc.first = .malformedInput) :
    primaryCount (generateTrace false sc).1 = 2 ∧
    (generateTrace false sc).1.take 2 = [.primary .noClean, .primary .light] ∧
    (sc.retry ≠ .ok → Attempt.streamCall ∈ (generateTrace false sc).1) := by
  obtain ⟨f, r, s, fo, io⟩ := sc
  cases h
  revert r s fo io
  decide

/-- Witness for c2_light_retry_then_fallback on a concrete scenario whose
retry fails with a server error. -/
theorem c2_light_retry_then_fallback_witness :
    primaryCount
        (generateTrace false ⟨.malformedInput, .serverError, true, true, true⟩).1 = 2 ∧
    Attempt.streamCall ∈
      (generateTrace false ⟨.malformedInput, .serverError, true, true, true⟩).1 :=
  ⟨(c2_light_retry_then_fallback ⟨.malformedInput, .serverError, true, true, true⟩
      rfl).1,
   (c2_light_retry_then_fallback ⟨.malformedInput, .serverError, true, true, true⟩
      rfl).2.2 (by decide)⟩

/-- C3 counterexample: a call whose first attempt hits a token-parse error,
whose light-cleaned retry also fails, and whose streaming fallback and both
replay measurement calls run, issues 5 network attempts, exceeding the
claimed bound of 4. -/
theorem c3_attempt_budget_counterexample :
    (generateTrace false ⟨.malformedInput, .serverError, true, true, true⟩).1.length
        = 5 ∧
    ¬ ((generateTrace false
          ⟨.malformedInput, .serverError, true, true, true⟩).1.length ≤ 4) := by
  refine ⟨by decide, by decide⟩

set_option maxRecDepth 8000 in
/-- C3 amended: for every resolved streaming decision and every scenario of
upstream outcomes, a single inbound call issues at most 5 network attempts
(1 first attempt, primary or streaming; 1 light-cleaned retry; 1 streaming
fallback call; 2 replay measurement calls), including the paths where a
failed streaming first attempt is caught by the except handler and
recovered; each wrapped-library invocation counts as one attempt (the
wrapped client's own max_retries=2, line 109, can multiply the primary
attempts further). -/
theorem c3_attempt_budget_bound :
    ∀ (wantsStreaming : Bool) (sc : Scenario),
      (generateTrace wantsStreaming sc).1.length ≤ 5 := by
  decide

set_option maxRecDepth 8000 in
/-- C7: the two construction-time streaming flags are resolved to the
single boolean user_wants_streaming by disjunction, so an explicit True
from either flag wins and a disagreement resolves to True; with no
call-time override the resolved value is returned unchanged at generation
time, and it alone decides whether the first network attempt is the
streaming path or the standard primary path. -/
theorem c7_streaming_flag_resolution :
    (∀ b1 b2 : Bool,
      initUserWantsStreaming (some b1) (some (.pybool b2)) = (b1 || b2)) ∧
    initUserWantsStreaming (some true) (some (.pybool false)) = true ∧
    initUserWantsStreaming (some false) (some (.pybool true)) = true ∧
    (∀ w : Bool, generateWantsStreaming w none = w) ∧
    (∀ (w : Bool) (sc : Scenario),
      (generateTrace w sc).1.head? =
        some (if w then Attempt.streamCall else Attempt.primary .noClean)) := by
  refine ⟨by decide, by decide, by decide, by decide, by decide⟩

/-- C9 counterexample: the direct fallback path builds its request body
from a fixed field set; a caller-supplied top_p option is absent from the
outbound request even though the caller supplied it. -/
theorem c9_fallback_drops_option_counterexample :
    "top_p" ∉ directRequestKeys (some 2000) := by decide

/-- C9 amended: the parameter-filtering functions are identities (no
per-provider allow-list) and the primary path forwards kwargs unchanged,
but the direct fallback path sends only the fixed field set model,
messages, temperature, stream and optionally max_tokens, dropping all
other caller-supplied generation options. -/
theorem c9_identity_filters_fixed_fallback_fields :
    (∀ (V : Type) (kw : List (String × V)), filterSafeKwargs kw = kw) ∧
    (∀ (V : Type) (kw : List (String × V)), filterModelKwargs kw = kw) ∧
    (∀ maxTokens : Option Nat,
      directRequestKeys maxTokens = ["model", "messages", "temperature", "stream"] ∨
      directRequestKeys maxTokens =
        ["model", "messages", "temperature", "stream", "max_tokens"]) := by
  refine ⟨fun _ _ => rfl, ?_, ?_⟩
  · intro V kw
    cases kw <;> simp [filterModelKwargs]
  · intro mt
    match mt with
    | none => exact Or.inl rfl
    | some n =>
      by_cases h : 0 < n
      · exact Or.inr (by simp [directRequestKeys, h])
      · exact Or.inl (by simp [directRequestKeys, h])

set_option maxRecDepth 8000 in
/-- C10: a non-boolean stream kwarg is silently coerced to the default
False at construction time and ignored at generation time, so with no
other streaming flag set the call takes the non-streaming primary path and
the non-boolean value is discarded. -/
theorem c10_nonbool_stream_coerced_to_default :
    resolveUserStream (some .nonBoolVal) = false ∧
    initUserWantsStreaming none (some .nonBoolVal) = false ∧
    generateWantsStreaming false (some .nonBoolVal) = false ∧
    (∀ sc : Scenario,
      (generateTrace
          (generateWantsStreaming (initUserWantsStreaming none (some .nonBoolVal))
            (some .nonBoolVal)) sc).1.head? =
        some (Attempt.primary .noClean)) := by
  refine ⟨rfl, rfl, rfl, by decide⟩

/-! ## Lemmas about the light cleaner and claim C6 -/
theorem normalizeCR_mem {c : Char} : ∀ {l : List Char}, c ∈ normalizeCR l → c ∈ l ∨ c = '\n' := by
  intro l
  induction l using normalizeCR.induct with
  | case1 => intro h; exact absurd h (List.not_mem_nil c)
  | case2 c0 =>
    intro h
    by_cases h0 : c0 = '\r'
    · simp [normalizeCR, h0] at h
      exact Or.inr h
    · simp [normalizeCR, h0] at h
      exact Or.inl (by simp [h])
  | case3 rest ih =>
    intro h
    simp only [normalizeCR, if_pos rfl, if_pos rfl] at h
    rcases List.mem_cons.mp h with h3 | h4
    · exact Or.inr h3
    · rcases ih h4 with h5 | h6
      · exact Or.inl (by simp [h5])
      · exact Or.inr h6
  | case4 c2 rest h2 ih =>
    intro h
    simp only [normalizeCR, if_pos rfl, if_neg h2] at h
    rcases List.mem_cons.mp h with h3 | h4
    · exact Or.inr h3
    · rcases ih h4 with h5 | h6
      · exact Or.inl (by simp [List.mem_cons.mp h5])
      · exact Or.inr h6
  | case5 c1 c2 rest h1 ih =>
    intro h
    simp only [normalizeCR, if_neg h1] at h
    rcases List.mem_cons.mp h with h3 | h4
    · exact Or.inl (by simp [h3])
    · rcases ih h4 with h5 | h6
      · exact Or.inl (by simp [List.mem_cons.mp h5])
      · exact Or.inr h6

theorem normalizeCR_no_cr : ∀ (l : List Char), '\r' ∉ normalizeCR l := by
  intro l
  induction l using normalizeCR.induct with
  | case1 => simp [normalizeCR]
  | case2 c0 =>
    by_cases h0 : c0 = '\r' <;> simp [normalizeCR, h0] <;> exact fun he => h0 (Eq.symm he)
  | case3 rest ih => simp [normalizeCR, ih]
  | case4 c2 rest h2 ih => simp [normalizeCR, h2, ih]
  | case5 c1 c2 rest h1 ih =>
    simp [normalizeCR, h1, ih]
    exact fun he => h1 (Eq.symm he)

theorem normalizeCR_eq_self : ∀ {l : List Char}, '\r' ∉ l → normalizeCR l = l := by
  intro l
  induction l using normalizeCR.induct with
  | case1 => intro _; rfl
  | case2 c0 =>
    intro h
    have h0 : c0 ≠ '\r' := by
      intro he
      exact h (by simp [he])
    simp [normalizeCR, h0]
  | case3 rest ih =>
    intro h
    exact absurd (by simp : '\r' ∈ '\r' :: '\n' :: rest) h
  | case4 c2 rest h2 ih =>
    intro h
    exact absurd (by simp : '\r' ∈ '\r' :: c2 :: rest) h
  | case5 c1 c2 rest h1 ih =>
    intro h
    have hrest : '\r' ∉ c2 :: rest := fun hm => h (List.mem_cons_of_mem _ hm)
    simp [normalizeCR, h1, ih hrest]


theorem noRun3From_mono (p : Char → Bool) :
    ∀ (l : List Char) (j k : Nat), j ≤ k → noRun3From p k l = true →
      noRun3From p j l = true := by
  intro l
  induction l with
  | nil => intro j k _ _; rfl
  | cons c rest ih =>
    intro j k hjk h
    by_cases hc : p c = true
    · simp only [noRun3From, hc, if_true, Bool.and_eq_true, decide_eq_true_eq] at h ⊢
      exact ⟨by omega, ih (j + 1) (k + 1) (by omega) h.2⟩
    · simp only [noRun3From, hc, if_false] at h ⊢
      exact h

theorem noRun3From_append (p : Char → Bool) :
    ∀ (a b : List Char) (k : Nat),
      noRun3From p k (a ++ b) =
        (noRun3From p k a && noRun3From p (runTail p k a) b) := by
  intro a
  induction a with
  | nil => intro b k; simp [noRun3From, runTail]
  | cons c a' ih =>
    intro b k
    by_cases hc : p c = true
    · simp [noRun3From, runTail, hc, ih, Bool.and_assoc]
    · simp [noRun3From, runTail, hc, ih]

theorem noRun3From_cons_false (p : Char → Bool) {d : Char} (hd : p d = false)
    (k : Nat) (y : List Char) :
    noRun3From p k (d :: y) = noRun3From p 0 y := by
  simp [noRun3From, hd]

theorem noRun3From_of_head_false (p : Char → Bool) (x : List Char)
    (hx : ∀ c, x.head? = some c → p c = false) (k : Nat) :
    noRun3From p k x = noRun3From p 0 x := by
  cases x with
  | nil => rfl
  | cons d y => rw [noRun3From_cons_false p (hx d rfl), noRun3From_cons_false p (hx d rfl)]

theorem noRun3From_takeWhile_len (p : Char → Bool) :
    ∀ (l : List Char) (k : Nat), noRun3From p k l = true →
      l.takeWhile p = [] ∨ k + (l.takeWhile p).length ≤ 2 := by
  intro l
  induction l with
  | nil => intro k _; exact Or.inl rfl
  | cons c rest ih =>
    intro k h
    by_cases hc : p c = true
    · simp only [noRun3From, hc, if_true, Bool.and_eq_true, decide_eq_true_eq] at h
      obtain ⟨h1, h2⟩ := h
      rcases ih (k + 1) h2 with h3 | h4
      · right
        simp [List.takeWhile_cons, hc, h3]
        omega
      · right
        simp only [List.takeWhile_cons, hc, if_true, List.length_cons]
        omega
    · left
      simp [List.takeWhile_cons, hc]

theorem noRun3From_dropWhile (p : Char → Bool) :
    ∀ (l : List Char) (k : Nat), noRun3From p k l = true →
      noRun3From p 0 (l.dropWhile p) = true := by
  intro l
  induction l with
  | nil => intro k _; rfl
  | cons c rest ih =>
    intro k h
    by_cases hc : p c = true
    · simp only [noRun3From, hc, if_true, Bool.and_eq_true] at h
      rw [List.dropWhile_cons, if_pos hc]
      exact ih (k + 1) h.2
    · rw [List.dropWhile_cons, if_neg hc]
      simp only [noRun3From, hc, if_false] at h
      rw [noRun3From_cons_false p (by revert hc; cases p c <;> simp)]
      exact h

theorem noRun3From_short_run (p : Char → Bool) :
    ∀ (x : List Char), (∀ c ∈ x, p c = true) → x.length ≤ 2 →
      noRun3From p 0 x = true := by
  intro x hall hlen
  match x with
  | [] => rfl
  | [a] => simp [noRun3From, hall a (by simp)]
  | [a, b] => simp [noRun3From, hall a (by simp), hall b (by simp)]
  | a :: b :: c :: _ => simp at hlen

theorem noRun3From_of_no_p (p : Char → Bool) :
    ∀ (x : List Char) (k : Nat), (∀ c ∈ x, p c = false) →
      noRun3From p k x = true := by
  intro x
  induction x with
  | nil => intro k _; rfl
  | cons c rest ih =>
    intro k hall
    have hc := hall c (List.mem_cons_self c rest)
    rw [noRun3From_cons_false p hc]
    exact ih 0 (fun d hd => hall d (List.mem_cons_of_mem _ hd))

theorem runTail_of_no_p (p : Char → Bool) :
    ∀ (x : List Char) (k : Nat), x ≠ [] → (∀ c ∈ x, p c = false) →
      runTail p k x = 0 := by
  intro x
  induction x with
  | nil => intro k h _; exact absurd rfl h
  | cons c rest ih =>
    intro k _ hall
    have hc := hall c (List.mem_cons_self c rest)
    by_cases hr : rest = []
    · subst hr; simp [runTail, hc]
    · simp only [runTail, hc, Bool.false_eq_true, if_false]
      exact ih 0 hr (fun d hd => hall d (List.mem_cons_of_mem _ hd))

theorem collapseRuns_eq_self (p : Char → Bool) (rep : List Char) :
    ∀ (l : List Char), noRun3 p l = true → collapseRuns p rep l = l := by
  intro l
  induction l using collapseRuns.induct p rep with
  | case1 => intro _; simp [collapseRuns]
  | case2 c rest hc ih =>
    intro h
    have hdw : noRun3From p 0 ((c :: rest).dropWhile p) = true :=
      noRun3From_dropWhile p (c :: rest) 0 h
    have htwne : (c :: rest).takeWhile p ≠ [] := by
      simp [List.takeWhile_cons, hc]
    have hlen : ((c :: rest).takeWhile p).length ≤ 2 := by
      rcases noRun3From_takeWhile_len p (c :: rest) 0 h with h1 | h2
      · exact absurd h1 htwne
      · omega
    rw [collapseRuns, dif_pos hc, if_neg (by omega), ih hdw]
    exact List.takeWhile_append_dropWhile p (c :: rest)
  | case3 c rest hc ih =>
    intro h
    have hc' : p c = false := by revert hc; cases p c <;> simp
    rw [collapseRuns, dif_neg hc]
    rw [noRun3, noRun3From_cons_false p hc'] at h
    rw [ih h]

theorem noRun3From_collapseRuns_of_head_false (p : Char → Bool) (rep : List Char)
    (l : List Char) (hl : ∀ c, l.head? = some c → p c = false) (k : Nat)
    (h0 : noRun3 p (collapseRuns p rep l) = true) :
    noRun3From p k (collapseRuns p rep l) = true := by
  match l with
  | [] => simp [collapseRuns, noRun3From]
  | d :: rest =>
    have hd : p d = false := hl d rfl
    rw [collapseRuns, dif_neg (by simp [hd])] at h0 ⊢
    rw [noRun3From_cons_false p hd]
    rw [noRun3, noRun3From_cons_false p hd] at h0
    exact h0

theorem dropWhile_head_false (p : Char → Bool) :
    ∀ (l : List Char) (c : Char), (l.dropWhile p).head? = some c → p c = false := by
  intro l
  induction l with
  | nil => intro c h; simp at h
  | cons c0 rest ih =>
    intro c h
    by_cases hc : p c0 = true
    · rw [List.dropWhile_cons, if_pos hc] at h
      exact ih c h
    · rw [List.dropWhile_cons, if_neg hc] at h
      simp at h
      rw [← h]
      revert hc; cases p c0 <;> simp

theorem noRun3_collapseRuns (p : Char → Bool) (rep : List Char)
    (hrep : noRun3 p rep = true) :
    ∀ (l : List Char), noRun3 p (collapseRuns p rep l) = true := by
  intro l
  induction l using collapseRuns.induct p rep with
  | case1 => simp [collapseRuns, noRun3, noRun3From]
  | case2 c rest hc ih =>
    have hdwhead : ∀ d, ((c :: rest).dropWhile p).head? = some d → p d = false :=
      fun d hd => dropWhile_head_false p (c :: rest) d hd
    have htail : ∀ k,
        noRun3From p k (collapseRuns p rep ((c :: rest).dropWhile p)) = true :=
      fun k => noRun3From_collapseRuns_of_head_false p rep _ hdwhead k ih
    rw [noRun3] at hrep ⊢
    rw [collapseRuns, dif_pos hc]
    by_cases h3 : 3 ≤ ((c :: rest).takeWhile p).length
    · rw [if_pos h3, noRun3From_append]
      rw [Bool.and_eq_true]
      exact ⟨hrep, htail _⟩
    · rw [if_neg h3, noRun3From_append]
      rw [Bool.and_eq_true]
      refine ⟨?_, htail _⟩
      exact noRun3From_short_run p _ (fun d hd => List.mem_takeWhile_imp hd) (by omega)
  | case3 c rest hc ih =>
    have hc' : p c = false := by revert hc; cases p c <;> simp
    rw [collapseRuns, dif_neg hc, noRun3, noRun3From_cons_false p hc']
    exact ih

theorem noRun3From_collapseRuns_other (p q : Char → Bool) (rep : List Char)
    (hpq : ∀ c, q c = true → p c = false) (hrepne : rep ≠ [])
    (hrepp : ∀ c ∈ rep, p c = false) :
    ∀ (l : List Char) (k : Nat), noRun3From p k l = true →
      noRun3From p k (collapseRuns q rep l) = true := by
  intro l
  induction l using collapseRuns.induct q rep with
  | case1 => intro k _; simp [collapseRuns, noRun3From]
  | case2 c rest hc ih =>
    intro k h
    have htwp : ∀ d ∈ (c :: rest).takeWhile q, p d = false :=
      fun d hd => hpq d (List.mem_takeWhile_imp hd)
    have htwne : (c :: rest).takeWhile q ≠ [] := by
      simp [List.takeWhile_cons, hc]
    rw [← List.takeWhile_append_dropWhile q (c :: rest), noRun3From_append] at h
    rw [Bool.and_eq_true] at h
    obtain ⟨h1, h2⟩ := h
    rw [runTail_of_no_p p _ k htwne htwp] at h2
    rw [collapseRuns, dif_pos hc, noRun3From_append, Bool.and_eq_true]
    refine ⟨?_, ?_⟩
    · by_cases h3 : 3 ≤ ((c :: rest).takeWhile q).length
      · rw [if_pos h3]; exact noRun3From_of_no_p p rep k hrepp
      · rw [if_neg h3]; exact noRun3From_of_no_p p _ k htwp
    · have hblockrt :
          runTail p k (if 3 ≤ ((c :: rest).takeWhile q).length then rep
            else (c :: rest).takeWhile q) = 0 := by
        by_cases h3 : 3 ≤ ((c :: rest).takeWhile q).length
        · rw [if_pos h3]; exact runTail_of_no_p p rep k hrepne hrepp
        · rw [if_neg h3]; exact runTail_of_no_p p _ k htwne htwp
      rw [hblockrt]
      exact ih 0 h2
  | case3 c rest hc ih =>
    intro k h
    rw [collapseRuns, dif_neg hc]
    by_cases hpc : p c = true
    · simp only [noRun3From, hpc, if_true, Bool.and_eq_true] at h ⊢
      exact ⟨h.1, ih (k + 1) h.2⟩
    · have hpc' : p c = false := by revert hpc; cases p c <;> simp
      rw [noRun3From_cons_false p hpc'] at h ⊢
      exact ih 0 h

theorem collapseRuns_mem (p : Char → Bool) (rep : List Char) :
    ∀ (l : List Char) (c : Char), c ∈ collapseRuns p rep l → c ∈ l ∨ c ∈ rep := by
  intro l
  induction l using collapseRuns.induct p rep with
  | case1 => intro c h; simp [collapseRuns] at h
  | case2 c0 rest hc ih =>
    intro c h
    rw [collapseRuns, dif_pos hc] at h
    rcases List.mem_append.mp h with h1 | h2
    · by_cases h3 : 3 ≤ ((c0 :: rest).takeWhile p).length
      · rw [if_pos h3] at h1; exact Or.inr h1
      · rw [if_neg h3] at h1
        left
        rw [← List.takeWhile_append_dropWhile p (c0 :: rest)]
        exact List.mem_append_left _ h1
    · rcases ih c h2 with h4 | h5
      · left
        rw [← List.takeWhile_append_dropWhile p (c0 :: rest)]
        exact List.mem_append_right _ h4
      · exact Or.inr h5
  | case3 c0 rest hc ih =>
    intro c h
    rw [collapseRuns, dif_neg hc] at h
    rcases List.mem_cons.mp h with h1 | h2
    · exact Or.inl (by simp [h1])
    · rcases ih c h2 with h3 | h4
      · exact Or.inl (List.mem_cons_of_mem _ h3)
      · exact Or.inr h4

theorem noRun3_take (p : Char → Bool) {l : List Char} (h : noRun3 p l = true)
    (n : Nat) : noRun3 p (l.take n) = true := by
  rw [noRun3, ← List.take_append_drop n l, noRun3From_append, Bool.and_eq_true] at h
  exact h.1

theorem rtrim_eq_take (p : Char → Bool) :
    ∀ (l : List Char), ∃ n, rtrim p l = List.take n l := by
  intro l
  induction l using rtrim.induct p with
  | case1 => exact ⟨0, rfl⟩
  | case2 c rest hr hc ih => exact ⟨0, by rw [rtrim, hr]; simp [hc]⟩
  | case3 c rest hr hc ih =>
    refine ⟨1, ?_⟩
    rw [rtrim, hr]
    simp [hc]
  | case4 c rest hr ih =>
    obtain ⟨n, hn⟩ := ih
    refine ⟨n + 1, ?_⟩
    cases htr : rtrim p rest with
    | nil => exact absurd htr hr
    | cons d r' =>
      rw [rtrim, htr]
      show c :: (d :: r') = List.take (n + 1) (c :: rest)
      rw [List.take_succ_cons, ← htr, hn]

theorem rtrim_getLast_false (p : Char → Bool) :
    ∀ (l : List Char) (c : Char), (rtrim p l).getLast? = some c → p c = false := by
  intro l
  induction l using rtrim.induct p with
  | case1 => intro c h; simp [rtrim] at h
  | case2 c0 rest hr hc ih =>
    intro c h
    rw [rtrim, hr] at h
    simp [hc] at h
  | case3 c0 rest hr hc ih =>
    intro c h
    rw [rtrim, hr] at h
    have hc' : p c0 = false := by revert hc; cases p c0 <;> simp
    simp [hc'] at h
    rw [← h]
    exact hc'
  | case4 c0 rest hr ih =>
    intro c h
    cases htr : rtrim p rest with
    | nil => exact absurd htr hr
    | cons d r' =>
      rw [rtrim, htr, List.getLast?_cons_cons] at h
      exact ih c (by rw [htr]; exact h)

theorem rtrim_eq_self (p : Char → Bool) :
    ∀ (l : List Char) (c : Char), l.getLast? = some c → p c = false →
      rtrim p l = l := by
  intro l
  induction l with
  | nil => intro c h _; simp at h
  | cons c0 rest ih =>
    intro c h hc
    cases rest with
    | nil =>
      simp at h
      have hin : rtrim p ([] : List Char) = [] := rfl
      rw [rtrim, hin]
      show (if p c0 = true then [] else [c0]) = [c0]
      simp [show p c0 = false from h ▸ hc]
    | cons r1 rest' =>
      rw [List.getLast?_cons_cons] at h
      have hr := ih c h hc
      rw [rtrim, hr]

theorem dropWhile_eq_self_head (p : Char → Bool) (l : List Char)
    (h : ∀ c, l.head? = some c → p c = false) : l.dropWhile p = l := by
  cases l with
  | nil => rfl
  | cons c rest => rw [List.dropWhile_cons, if_neg (by simp [h c rfl])]

theorem head_take {l : List Char} {n : Nat} {c : Char}
    (h : (l.take n).head? = some c) : l.head? = some c := by
  cases l with
  | nil => simp at h
  | cons a rest =>
    cases n with
    | zero => simp at h
    | succ m =>
      rw [List.take_succ_cons] at h
      simpa using h

theorem pyStrip_head_false (l : List Char) (c : Char)
    (h : (pyStrip l).head? = some c) : pyWs c = false := by
  rw [pyStrip] at h
  obtain ⟨n, hn⟩ := rtrim_eq_take pyWs (l.dropWhile pyWs)
  rw [hn] at h
  exact dropWhile_head_false pyWs l c (head_take h)

theorem pyStrip_getLast_false (l : List Char) (c : Char)
    (h : (pyStrip l).getLast? = some c) : pyWs c = false :=
  rtrim_getLast_false pyWs (l.dropWhile pyWs) c h

theorem pyStrip_eq_self (l : List Char)
    (hh : ∀ c, l.head? = some c → pyWs c = false)
    (hl : ∀ c, l.getLast? = some c → pyWs c = false) : pyStrip l = l := by
  rw [pyStrip, dropWhile_eq_self_head pyWs l hh]
  cases hgl : l.getLast? with
  | none =>
    rw [List.getLast?_eq_none_iff] at hgl
    subst hgl
    rfl
  | some c => exact rtrim_eq_self pyWs l c hgl (hl c hgl)

theorem pyStrip_idem (l : List Char) : pyStrip (pyStrip l) = pyStrip l :=
  pyStrip_eq_self _ (fun c h => pyStrip_head_false l c h)
    (fun c h => pyStrip_getLast_false l c h)

theorem pyStrip_subset {l : List Char} {c : Char} (h : c ∈ pyStrip l) : c ∈ l := by
  rw [pyStrip] at h
  obtain ⟨n, hn⟩ := rtrim_eq_take pyWs (l.dropWhile pyWs)
  rw [hn] at h
  have h2 := List.take_subset n _ h
  rw [← List.takeWhile_append_dropWhile pyWs l]
  exact List.mem_append_right _ h2

theorem noRun3_pyStrip (p : Char → Bool) {l : List Char}
    (h : noRun3 p l = true) : noRun3 p (pyStrip l) = true := by
  have h1 : noRun3 p (l.dropWhile pyWs) = true := by
    rw [noRun3, ← List.takeWhile_append_dropWhile pyWs l, noRun3From_append,
      Bool.and_eq_true] at h
    exact noRun3From_mono p _ 0 _ (Nat.zero_le _) h.2
  obtain ⟨n, hn⟩ := rtrim_eq_take pyWs (l.dropWhile pyWs)
  rw [pyStrip, hn]
  exact noRun3_take p h1 n

theorem noRun3_append_sep (p : Char → Bool) {a y : List Char} {d : Char}
    (ha : noRun3 p a = true) (hd : p d = false)
    (hy : noRun3From p 0 y = true) : noRun3 p (a ++ d :: y) = true := by
  rw [noRun3, noRun3From_append, Bool.and_eq_true]
  refine ⟨ha, ?_⟩
  rw [noRun3From_cons_false p hd]
  exact hy

theorem sanitizePipeline_mem (l : List Char) :
    ∀ c ∈ sanitizePipeline l, isZeroWidthChar c = false ∧ c ≠ '\r' := by
  have hA : ∀ c, c ∈ normalizeCR (stripZeroWidth l) →
      isZeroWidthChar c = false ∧ c ≠ '\r' := by
    intro c hc
    constructor
    · rcases normalizeCR_mem hc with h1 | h1
      · have := List.of_mem_filter h1
        simpa using this
      · subst h1; decide
    · intro he
      subst he
      exact normalizeCR_no_cr _ hc
  intro c hc
  have hc' := pyStrip_subset hc
  rcases collapseRuns_mem isSpTab [' ', ' '] _ c hc' with hc1 | hc1
  · rcases collapseRuns_mem isNL ['\n', '\n'] _ c hc1 with hc2 | hc2
    · exact hA c hc2
    · have : c = '\n' := by simpa using hc2
      subst this
      exact ⟨by decide, by decide⟩
  · have : c = ' ' := by simpa using hc1
    subst this
    exact ⟨by decide, by decide⟩

theorem sanitizePipeline_noRun3_nl (l : List Char) :
    noRun3 isNL (sanitizePipeline l) = true := by
  have h0 : noRun3 isNL
      (collapseRuns isNL ['\n', '\n'] (normalizeCR (stripZeroWidth l))) = true :=
    noRun3_collapseRuns isNL ['\n', '\n'] (by decide) _
  have h1 : noRun3 isNL (collapseRuns isSpTab [' ', ' ']
      (collapseRuns isNL ['\n', '\n'] (normalizeCR (stripZeroWidth l)))) = true := by
    refine noRun3From_collapseRuns_other isNL isSpTab [' ', ' '] ?_ (by simp)
      (by decide) _ 0 h0
    intro c h
    have : c = ' ' ∨ c = '\t' := by simpa [isSpTab] using h
    rcases this with h | h <;> subst h <;> decide
  exact noRun3_pyStrip isNL h1

theorem sanitizePipeline_noRun3_sp (l : List Char) :
    noRun3 isSpTab (sanitizePipeline l) = true :=
  noRun3_pyStrip isSpTab
    (noRun3_collapseRuns isSpTab [' ', ' '] (by decide) _)

theorem sanitizePipeline_strip (l : List Char) :
    pyStrip (sanitizePipeline l) = sanitizePipeline l :=
  pyStrip_idem _

theorem sanitizePipeline_head_false (l : List Char) (c : Char)
    (h : (sanitizePipeline l).head? = some c) : pyWs c = false :=
  pyStrip_head_false _ c h

theorem sanitizePipeline_eq_self (v : List Char)
    (hzw : ∀ c ∈ v, isZeroWidthChar c = false)
    (hcr : '\r' ∉ v)
    (hnl : noRun3 isNL v = true)
    (hsp : noRun3 isSpTab v = true)
    (hstrip : pyStrip v = v) : sanitizePipeline v = v := by
  have h1 : stripZeroWidth v = v := by
    rw [stripZeroWidth, List.filter_eq_self]
    intro a ha
    simp [hzw a ha]
  rw [sanitizePipeline, h1, normalizeCR_eq_self hcr,
    collapseRuns_eq_self _ _ v hnl, collapseRuns_eq_self _ _ v hsp, hstrip]

theorem cleanChars_eq_of_nil (l : List Char) (h : sanitizePipeline l = []) :
    cleanChars l = placeholderContent := by
  simp only [cleanChars, h, if_true]
  rw [if_neg (by decide)]

theorem cleanChars_eq_of_le (l : List Char) (hne : sanitizePipeline l ≠ [])
    (hlen : ¬ 8000 < (sanitizePipeline l).length) :
    cleanChars l = sanitizePipeline l := by
  simp only [cleanChars]
  rw [if_neg hne, if_neg hlen]

theorem cleanChars_eq_of_gt (l : List Char) (hne : sanitizePipeline l ≠ [])
    (hlen : 8000 < (sanitizePipeline l).length) :
    cleanChars l = (sanitizePipeline l).take 8000 ++ truncationMark := by
  simp only [cleanChars]
  rw [if_neg hne, if_pos hlen]

theorem cleanChars_idem (l : List Char) :
    cleanChars (cleanChars l) = cleanChars l := by
  by_cases hse : sanitizePipeline l = []
  · rw [cleanChars_eq_of_nil l hse]
    have hsp : sanitizePipeline placeholderContent = placeholderContent :=
      sanitizePipeline_eq_self _ (by decide) (by decide) (by decide) (by decide)
        (by decide)
    rw [cleanChars_eq_of_le placeholderContent (by rw [hsp]; decide)
      (by rw [hsp]; decide), hsp]
  · have hzw_s : ∀ c ∈ sanitizePipeline l, isZeroWidthChar c = false :=
      fun c hc => (sanitizePipeline_mem l c hc).1
    have hcr_s : '\r' ∉ sanitizePipeline l :=
      fun hc => (sanitizePipeline_mem l '\r' hc).2 rfl
    have hnl_s := sanitizePipeline_noRun3_nl l
    have hsp_s := sanitizePipeline_noRun3_sp l
    have hstrip_s := sanitizePipeline_strip l
    by_cases hlen : 8000 < (sanitizePipeline l).length
    · rw [cleanChars_eq_of_gt l hse hlen]
      have halen : ((sanitizePipeline l).take 8000).length = 8000 := by
        rw [List.length_take]
        omega
      have hane : (sanitizePipeline l).take 8000 ≠ [] := by
        intro h
        rw [h] at halen
        simp at halen
      have hmark_head_nl : ∀ c, truncationMark.head? = some c → isNL c = false := by
        intro c h
        have hh : truncationMark.head? = some '.' := by decide
        rw [hh] at h
        cases h
        decide
      have hmark_head_sp : ∀ c, truncationMark.head? = some c → isSpTab c = false := by
        intro c h
        have hh : truncationMark.head? = some '.' := by decide
        rw [hh] at h
        cases h
        decide
      have hzw_v : ∀ c ∈ (sanitizePipeline l).take 8000 ++ truncationMark,
          isZeroWidthChar c = false := by
        intro c hc
        rcases List.mem_append.mp hc with h | h
        · exact hzw_s c (List.take_subset _ _ h)
        · exact (by decide : ∀ c ∈ truncationMark, isZeroWidthChar c = false) c h
      have hcr_v : '\r' ∉ (sanitizePipeline l).take 8000 ++ truncationMark := by
        intro hc
        rcases List.mem_append.mp hc with h | h
        · exact hcr_s (List.take_subset _ _ h)
        · exact (by decide : '\r' ∉ truncationMark) h
      have hnl_v : noRun3 isNL ((sanitizePipeline l).take 8000 ++ truncationMark)
          = true := by
        rw [noRun3, noRun3From_append, Bool.and_eq_true]
        refine ⟨noRun3_take isNL hnl_s 8000, ?_⟩
        rw [noRun3From_of_head_false isNL truncationMark hmark_head_nl]
        decide
      have hsp_v : noRun3 isSpTab ((sanitizePipeline l).take 8000 ++ truncationMark)
          = true := by
        rw [noRun3, noRun3From_append, Bool.and_eq_true]
        refine ⟨noRun3_take isSpTab hsp_s 8000, ?_⟩
        rw [noRun3From_of_head_false isSpTab truncationMark hmark_head_sp]
        decide
      have hstrip_v : pyStrip ((sanitizePipeline l).take 8000 ++ truncationMark) =
          (sanitizePipeline l).take 8000 ++ truncationMark := by
        apply pyStrip_eq_self
        · intro c hc
          have hha : ((sanitizePipeline l).take 8000 ++ truncationMark).head? =
              ((sanitizePipeline l).take 8000).head? := by
            cases hta : (sanitizePipeline l).take 8000 with
            | nil => exact absurd hta hane
            | cons x xs => rfl
          rw [hha] at hc
          exact sanitizePipeline_head_false l c (head_take hc)
        · intro c hc
          have hgl : ((sanitizePipeline l).take 8000 ++ truncationMark).getLast? =
              some ')' := by
            rw [List.getLast?_append]
            have hm : truncationMark.getLast? = some ')' := by decide
            rw [hm]
            rfl
          rw [hgl] at hc
          cases hc
          decide
      have hvne : (sanitizePipeline l).take 8000 ++ truncationMark ≠ [] := by
        intro h
        have := congrArg List.length h
        rw [List.length_append, halen] at this
        simp at this
      have hvlen : 8000 < ((sanitizePipeline l).take 8000 ++ truncationMark).length := by
        rw [List.length_append, halen]
        have hm : truncationMark.length = 12 := by decide
        omega
      have hsv : sanitizePipeline ((sanitizePipeline l).take 8000 ++ truncationMark) =
          (sanitizePipeline l).take 8000 ++ truncationMark :=
        sanitizePipeline_eq_self _ hzw_v hcr_v hnl_v hsp_v hstrip_v
      rw [cleanChars_eq_of_gt _ (by rw [hsv]; exact hvne) (by rw [hsv]; exact hvlen),
        hsv]
      have htake : ((sanitizePipeline l).take 8000 ++ truncationMark).take 8000 =
          (sanitizePipeline l).take 8000 := by
        rw [List.take_append_eq_append_take, halen, Nat.sub_self, List.take_zero,
          List.append_nil, List.take_take, Nat.min_self]
      rw [htake]
    · rw [cleanChars_eq_of_le l hse hlen]
      have hss : sanitizePipeline (sanitizePipeline l) = sanitizePipeline l :=
        sanitizePipeline_eq_self _ hzw_s hcr_s hnl_s hsp_s hstrip_s
      rw [cleanChars_eq_of_le (sanitizePipeline l) (by rw [hss]; exact hse)
        (by rw [hss]; exact hlen), hss]

theorem cleanChars_ne_nil (l : List Char) : cleanChars l ≠ [] := by
  by_cases hse : sanitizePipeline l = []
  · rw [cleanChars_eq_of_nil l hse]
    decide
  · by_cases hlen : 8000 < (sanitizePipeline l).length
    · rw [cleanChars_eq_of_gt l hse hlen]
      intro h
      have hm : truncationMark.length = 12 := by decide
      have h2 := congrArg List.length h
      rw [List.length_append, hm] at h2
      simp at h2
    · rw [cleanChars_eq_of_le l hse hlen]
      exact hse

theorem cleanChars_nil : cleanChars [] = placeholderContent := by
  apply cleanChars_eq_of_nil
  have h1 : stripZeroWidth [] = [] := rfl
  have h2 : normalizeCR [] = [] := rfl
  have h3 : collapseRuns isNL ['\n', '\n'] [] = [] := by simp [collapseRuns]
  have h4 : collapseRuns isSpTab [' ', ' '] [] = [] := by simp [collapseRuns]
  rw [sanitizePipeline, h1, h2, h3, h4]
  rfl

/-- C6: the light cleaner _clean_message_content is idempotent and never
returns the empty string; the empty input (and any input cleaning to
empty) is replaced by the fixed placeholder.  It never raises: it is a
total function in this embedding, mirroring the pure string operations of
lines 237-274. -/
theorem c6_light_clean_idempotent_nonempty :
    (∀ m : String,
      cleanMessageContent (cleanMessageContent m) = cleanMessageContent m ∧
      cleanMessageContent m ≠ "") ∧
    cleanMessageContent "" = "请提供分析建议。" := by
  constructor
  · intro m
    constructor
    · exact congrArg String.mk (cleanChars_idem m.data)
    · intro h
      exact cleanChars_ne_nil m.data (congrArg String.data h)
  · exact congrArg String.mk cleanChars_nil

/-- Witness for c6_light_clean_idempotent_nonempty at a concrete message. -/
theorem c6_light_clean_idempotent_nonempty_witness :
    cleanMessageContent (cleanMessageContent "hello 分析") =
      cleanMessageContent "hello 分析" ∧
    cleanMessageContent "hello 分析" ≠ "" :=
  (c6_light_clean_idempotent_nonempty.1 "hello 分析")
